import Mathlib

/-!
Shallow embedding of the query-sense text-to-SQL revision workflow
(src/agent.py, src/agent_state.py) and proofs about its revision-control
state machine.

Modelling conventions:
  - Python ints are modelled as Int (arbitrary precision, possibly negative).
  - The language-model gateway is an oracle gw : Nat -> String giving the
    response text of the n-th llm.invoke call of the run (calls are numbered
    in the order the strictly sequential pipeline issues them).
  - Python string ops are embedded structurally over the character list:
    resp.upper() is pyUpper, resp.strip() is pyStrip, tok in s is pyIn.
    (Lean's built-in String.toUpper and String.trim compute the same
    character lists but through byte-position recursion that the kernel
    cannot unfold, so the embeddings recurse over data directly.)
  - langgraph semantics: StateGraph(AgentState) makes every TypedDict key a
    channel.  None of the keys of AgentState (agent_state.py) carries an
    Annotated reducer, so every channel is a LastValue channel: the partial
    dict a node returns OVERWRITES the named keys of the state.  In
    particular chief_dba_node returning a one-element list for the reflect
    key replaces the previous feedback list; it does not append to it.
    Each node here is therefore a total function on the state applying its
    returned update.
-/

/-- The shared workflow record of the run: the AgentState TypedDict of
agent_state.py.  reflect is the feedback history. -/
structure AgentState where
  question : String
  table_schemas : String
  database : String
  sql : String
  reflect : List String
  accepted : Bool
  revision : Int
  max_revision : Int
deriving Repr, DecidableEq

/-- Python s.upper(): uppercase every character. -/
def pyUpper (s : String) : String :=
  ⟨s.data.map Char.toUpper⟩

/-- Python s.strip(): drop leading and trailing whitespace characters. -/
def pyStrip (s : String) : String :=
  ⟨((s.data.dropWhile Char.isWhitespace).reverse.dropWhile Char.isWhitespace).reverse⟩

/-- Python tok in s: tok occurs somewhere in s as a contiguous substring. -/
def pyIn (tok s : String) : Bool :=
  decide (tok.data <:+: s.data)

/-- The configuration of agent.py Agent.__init__ that the graph nodes read:
the fixed schema text and the database label. -/
structure Agent where
  table_schemas : String
  database : String

/-- agent.py Agent.search_engineer_node: writes the configured schema text
and database label into the state; no gateway call. -/
def search_engineer_node (A : Agent) (s : AgentState) : AgentState :=
  { s with table_schemas := A.table_schemas, database := A.database }

/-- agent.py lines 56-59: the instruction senior_sql_writer_node assembles —
schema, then (only when reflect is non-empty) the feedback entries joined by
chr(10), then the question. -/
def writerInstruction (s : AgentState) : String :=
  let i1 := "Esquema do banco de dados:\n" ++ s.table_schemas ++ "\n"
  let i2 := if s.reflect.length > 0 then
      i1 ++ ("Considere os seguintes feedbacks:\n" ++ String.intercalate "\n" s.reflect ++ "\n")
    else i1
  i2 ++ ("Escreva a consulta SQL que responda à seguinte pergunta: " ++ s.question ++ "\n")

/-- agent.py Agent.senior_sql_writer_node: sends writerInstruction to the
gateway, stores the response stripped of surrounding whitespace as sql, and
increments revision.  resp is the gateway response text. -/
def senior_sql_writer_node (s : AgentState) (resp : String) : AgentState :=
  { s with sql := pyStrip resp, revision := s.revision + 1 }

/-- agent.py Agent.senior_qa_engineer_node, line 81: the verdict is
accepted := ACEITO in resp.upper(). -/
def senior_qa_engineer_node (s : AgentState) (resp : String) : AgentState :=
  { s with accepted := pyIn "ACEITO" (pyUpper resp) }

/-- agent.py Agent.chief_dba_node, line 96: the node returns the update
with reflect set to the one-element list holding the whole response.  The
reflect channel is a LastValue channel (no reducer in agent_state.py), so
this update replaces the previous feedback list. -/
def chief_dba_node (s : AgentState) (resp : String) : AgentState :=
  { s with reflect := [resp] }

/-- agent.py line 124, the conditional-edge lambda attached to qa_engineer:
END if accepted or revision >= max_revision, else the label reflect.
langgraph's END sentinel is the string with value given below. -/
def qa_router (s : AgentState) : String :=
  if s.accepted = true ∨ s.revision ≥ s.max_revision then "__end__" else "reflect"

/-- agent.py line 125, the conditional-edge label map
given as the dict from END to END and from reflect to chief_dba. -/
def qa_edge_map (label : String) : String :=
  if label = "reflect" then "chief_dba" else "__end__"

/-- Fuel-indexed interpreter of the cyclic part of the compiled graph
(agent.py Agent.compile): sql_writer, then qa_engineer, then either END or
chief_dba and back to sql_writer.  k is the index of the next gateway call;
the result pairs the terminal state with the number of sql_writer (drafting)
invocations performed.  none means the fuel ran out (with enough fuel this
never happens: loopFrom_total). -/
def loopFrom (gw : Nat → String) : Nat → Nat → AgentState → Option (AgentState × Nat)
  | 0, _, _ => none
  | fuel + 1, k, s =>
    let s1 := senior_sql_writer_node s (gw k)
    let s2 := senior_qa_engineer_node s1 (gw (k + 1))
    if qa_router s2 = "__end__" then
      some (s2, 1)
    else
      let s3 := chief_dba_node s2 (gw (k + 2))
      match loopFrom gw fuel (k + 3) s3 with
      | none => none
      | some (t, d) => some (t, d + 1)

/-- agent.py lines 148-157: the initial state built inside run. -/
def initial_state (question : String) (max_revision : Int) : AgentState :=
  { question := question
    table_schemas := ""
    database := ""
    sql := ""
    reflect := []
    accepted := false
    revision := 0
    max_revision := max_revision }

/-- One full pass of graph.stream on the initial state: the entry node
search_engineer, then the drafting loop.  The fuel max_revision.toNat + 1
always suffices (loopFrom_total). -/
def runGraph (gw : Nat → String) (A : Agent) (question : String) (max_revision : Int) :
    Option (AgentState × Nat) :=
  loopFrom gw (max_revision.toNat + 1) 0
    (search_engineer_node A (initial_state question max_revision))

/-- What one call of agent.py run (lines 137-165) produces: stored is the
terminal snapshot kept in self.state by graph.get_state, and returned is the
Python return value of the call. -/
structure RunOutcome where
  stored : Option (AgentState × Nat)
  returned : Option AgentState

/-- agent.py run, lines 137-165: streams the graph to completion and stores
the final snapshot in self.state (line 165).  The body has no return
statement, so the Python call returns None, modelled as returned := none.
(The def is moreover indented inside compile, lines 98-135, so it is a local
closure of compile that is never called, not a method of Agent.) -/
def run (gw : Nat → String) (A : Agent) (question : String) (max_revision : Int) :
    RunOutcome :=
  { stored := runGraph gw A question max_revision
    returned := none }

/-- A canned gateway that rejects every draft: every response is the literal
verdict REJEITADO, which never contains ACEITO. -/
def gwReject : Nat → String :=
  fun _ => "REJEITADO"

/-- A canned gateway whose n-th response is R followed by n, so each
feedback entry is distinct; no response contains ACEITO. -/
def gwNum : Nat → String :=
  fun n => "R" ++ Nat.repr n

/-- A canned gateway that accepts the first draft with mixed casing and
extra prose around the verdict token. -/
def gwAccept : Nat → String :=
  fun _ => "claro, esta consulta esta correta: aceito sim"

/-- A concrete agent configuration for witnesses and counterexamples. -/
def agent0 : Agent :=
  { table_schemas := "tabela pessoas", database := "db" }

/-- Unfolding of one successful-stop step of the loop interpreter. -/
theorem loopFrom_succ_stop (gw : Nat → String) (fuel k : Nat) (s : AgentState)
    (h : qa_router (senior_qa_engineer_node (senior_sql_writer_node s (gw k)) (gw (k + 1))) = "__end__") :
    loopFrom gw (fuel + 1) k s =
      some (senior_qa_engineer_node (senior_sql_writer_node s (gw k)) (gw (k + 1)), 1) := by
  simp [loopFrom, h]

/-- Unfolding of one continuing step of the loop interpreter: on a reject
below the cap, the run recurses from the state chief_dba_node produced and
one more draft is counted. -/
theorem loopFrom_succ_go (gw : Nat → String) (fuel k : Nat) (s : AgentState)
    (h : ¬ qa_router (senior_qa_engineer_node (senior_sql_writer_node s (gw k)) (gw (k + 1))) = "__end__") :
    loopFrom gw (fuel + 1) k s =
      (loopFrom gw fuel (k + 3)
        (chief_dba_node (senior_qa_engineer_node (senior_sql_writer_node s (gw k)) (gw (k + 1)))
          (gw (k + 2)))).map (fun p => (p.1, p.2 + 1)) := by
  simp only [loopFrom, h, if_false, if_neg h]
  cases loopFrom gw fuel (k + 3)
      (chief_dba_node (senior_qa_engineer_node (senior_sql_writer_node s (gw k)) (gw (k + 1)))
        (gw (k + 2))) with
  | none => rfl
  | some p => rfl

/-- Totality of the loop interpreter: with fuel strictly above
(max_revision - revision).toNat the interpreter returns a terminal state,
at least one draft is made, the terminal revision counts exactly the drafts
made on top of the entry revision, max_revision is never written, and the
number of drafts is at most max 1 (max_revision - revision).toNat. -/
theorem loopFrom_total (gw : Nat → String) :
    ∀ (fuel k : Nat) (s : AgentState),
      (s.max_revision - s.revision).toNat < fuel →
      ∃ t d, loopFrom gw fuel k s = some (t, d) ∧ 1 ≤ d ∧
        t.revision = s.revision + (d : Int) ∧
        t.max_revision = s.max_revision ∧
        d ≤ max 1 (s.max_revision - s.revision).toNat := by
  intro fuel
  induction fuel with
  | zero =>
    intro k s h
    exact absurd h (Nat.not_lt_zero _)
  | succ fuel ih =>
    intro k s h
    by_cases hstop :
        qa_router (senior_qa_engineer_node (senior_sql_writer_node s (gw k)) (gw (k + 1))) = "__end__"
    · refine ⟨_, 1, loopFrom_succ_stop gw fuel k s hstop, le_refl 1, ?_, ?_, Nat.le_max_left 1 _⟩
      · simp [senior_qa_engineer_node, senior_sql_writer_node]
      · simp [senior_qa_engineer_node, senior_sql_writer_node]
    · have hcond :
          ¬((senior_qa_engineer_node (senior_sql_writer_node s (gw k)) (gw (k + 1))).accepted = true ∨
            (senior_qa_engineer_node (senior_sql_writer_node s (gw k)) (gw (k + 1))).revision ≥
              (senior_qa_engineer_node (senior_sql_writer_node s (gw k)) (gw (k + 1))).max_revision) := by
        intro hc
        exact hstop (by rw [qa_router, if_pos hc])
      have hlt :
          (senior_qa_engineer_node (senior_sql_writer_node s (gw k)) (gw (k + 1))).revision <
            (senior_qa_engineer_node (senior_sql_writer_node s (gw k)) (gw (k + 1))).max_revision := by
        by_contra hge
        exact hcond (Or.inr (le_of_not_lt hge))
      have hrev2 :
          (senior_qa_engineer_node (senior_sql_writer_node s (gw k)) (gw (k + 1))).revision =
            s.revision + 1 := by
        simp [senior_qa_engineer_node, senior_sql_writer_node]
      have hmax2 :
          (senior_qa_engineer_node (senior_sql_writer_node s (gw k)) (gw (k + 1))).max_revision =
            s.max_revision := by
        simp [senior_qa_engineer_node, senior_sql_writer_node]
      have hfuel3 :
          ((chief_dba_node (senior_qa_engineer_node (senior_sql_writer_node s (gw k)) (gw (k + 1)))
              (gw (k + 2))).max_revision -
            (chief_dba_node (senior_qa_engineer_node (senior_sql_writer_node s (gw k)) (gw (k + 1)))
              (gw (k + 2))).revision).toNat < fuel := by
        simp only [chief_dba_node, hrev2, hmax2] at *
        omega
      obtain ⟨t, d, heq, hd1, hrevt, hmaxt, hbound⟩ :=
        ih (k + 3)
          (chief_dba_node (senior_qa_engineer_node (senior_sql_writer_node s (gw k)) (gw (k + 1)))
            (gw (k + 2))) hfuel3
      refine ⟨t, d + 1, ?_, Nat.le_add_left 1 d, ?_, ?_, ?_⟩
      · rw [loopFrom_succ_go gw fuel k s hstop, heq]
        rfl
      · rw [hrevt]
        simp only [chief_dba_node, hrev2]
        push_cast
        ring
      · rw [hmaxt]
        simp [chief_dba_node, hmax2]
      · have hb2 : d ≤ max 1 (s.max_revision - (s.revision + 1)).toNat := by
          simpa [chief_dba_node, hrev2, hmax2] using hbound
        have hlt2 : s.revision + 1 < s.max_revision := by
          rw [hrev2, hmax2] at hlt
          exact hlt
        have : (s.max_revision - (s.revision + 1)).toNat + 1 ≤ (s.max_revision - s.revision).toNat := by
          omega
        have hb3 : d ≤ (s.max_revision - (s.revision + 1)).toNat := by
          rcases Nat.max_le.mp (le_refl (max 1 (s.max_revision - (s.revision + 1)).toNat)) with ⟨h1, h2⟩
          omega
        calc d + 1 ≤ (s.max_revision - (s.revision + 1)).toNat + 1 := by omega
          _ ≤ (s.max_revision - s.revision).toNat := this
          _ ≤ max 1 (s.max_revision - s.revision).toNat := Nat.le_max_right 1 _

/-- C1: after the Acceptance Review (qa_engineer) stage the run terminates
iff accepted is true or revision has reached max_revision, proceeds to the
Feedback stage (chief_dba) iff accepted is false and revision is below
max_revision, and these two are the only outgoing transitions of the
reviewing state. -/
theorem C1_reviewing_transitions (s : AgentState) :
    (qa_router s = "__end__" ↔ (s.accepted = true ∨ s.revision ≥ s.max_revision)) ∧
    (qa_edge_map (qa_router s) = "chief_dba" ↔ (s.accepted = false ∧ s.revision < s.max_revision)) ∧
    (qa_router s = "__end__" ∨ qa_router s = "reflect") := by
  by_cases hc : s.accepted = true ∨ s.revision ≥ s.max_revision
  · refine ⟨⟨fun _ => hc, fun _ => by rw [qa_router, if_pos hc]⟩, ?_, Or.inl (by rw [qa_router, if_pos hc])⟩
    rw [qa_router, if_pos hc]
    constructor
    · intro hmap
      exact absurd hmap (by decide)
    · rintro ⟨ha, hlt⟩
      rcases hc with hc | hc
      · rw [ha] at hc
        exact absurd hc (by decide)
      · exact absurd hc (not_le_of_lt hlt)
  · have hrouter : qa_router s = "reflect" := by rw [qa_router, if_neg hc]
    push_neg at hc
    refine ⟨?_, ?_, Or.inr hrouter⟩
    · rw [hrouter]
      constructor
      · intro hend
        exact absurd hend (by decide)
      · intro hor
        rcases hor with h | h
        · exact absurd h hc.1
        · exact absurd h (not_le_of_lt hc.2)
    · rw [hrouter, qa_edge_map, if_pos rfl]
      refine ⟨fun _ => ⟨?_, hc.2⟩, fun _ => rfl⟩
      rcases Bool.eq_false_or_eq_true s.accepted with h | h
      · exact absurd h hc.1
      · exact h

/-- C2: the loop does run to completion and a terminal snapshot is stored,
but the Python call run(question, max_revision) returns None, never the
terminal WorkflowState record the claim describes. -/
theorem C2_run_returns_none (gw : Nat → String) (A : Agent) (q : String) (m : Int) :
    (run gw A q m).returned = none ∧ (run gw A q m).stored.isSome = true := by
  refine ⟨rfl, ?_⟩
  have hfuel :
      (((search_engineer_node A (initial_state q m)).max_revision -
        (search_engineer_node A (initial_state q m)).revision).toNat) < m.toNat + 1 := by
    simp only [search_engineer_node, initial_state]
    omega
  obtain ⟨t, d, heq, _, _, _, _⟩ :=
    loopFrom_total gw (m.toNat + 1) 0 (search_engineer_node A (initial_state q m)) hfuel
  simp [run, runGraph, heq]

/-- C3: evaluation of the always-reject scenario the claim quantifies over,
at question pergunta and max_revision 3: the run does stop with revision 3,
accepted false and 3 drafts, but the terminal feedback history holds 1
entry, not max_revision - 1 = 2 — the reflect channel is overwritten, not
appended to. -/
theorem C3_always_reject_run :
    (runGraph gwReject agent0 "pergunta" 3).map
      (fun p => (p.1.revision, p.1.accepted, p.1.reflect.length, p.2)) =
      some (3, false, 1, 3) := by
  decide

/-- C4: whenever the review of the very first draft parses as an acceptance
(gateway call 1 contains the accept token after case normalization) and
max_revision is at least 1, the run stops at once with revision 1 and an
empty feedback history. -/
theorem C4_first_accept (gw : Nat → String) (A : Agent) (q : String) (m : Int)
    (_hm : 1 ≤ m) (hacc : pyIn "ACEITO" (pyUpper (gw 1)) = true) :
    ∃ t : AgentState, runGraph gw A q m = some (t, 1) ∧
      t.revision = 1 ∧ t.reflect = [] ∧ t.accepted = true := by
  have hend :
      qa_router (senior_qa_engineer_node
        (senior_sql_writer_node (search_engineer_node A (initial_state q m)) (gw 0))
        (gw (0 + 1))) = "__end__" := by
    rw [qa_router, if_pos]
    left
    simpa [senior_qa_engineer_node] using hacc
  refine ⟨senior_qa_engineer_node
      (senior_sql_writer_node (search_engineer_node A (initial_state q m)) (gw 0))
      (gw (0 + 1)), ?_, ?_, ?_, ?_⟩
  · exact loopFrom_succ_stop gw m.toNat 0 (search_engineer_node A (initial_state q m)) hend
  · simp [senior_qa_engineer_node, senior_sql_writer_node, search_engineer_node, initial_state]
  · simp [senior_qa_engineer_node, senior_sql_writer_node, search_engineer_node, initial_state]
  · simpa [senior_qa_engineer_node] using hacc

/-- C4 witness: a mixed-casing acceptance with surrounding prose on the
first review, max_revision 10. -/
theorem C4_first_accept_witness :
    ∃ t : AgentState, runGraph gwAccept agent0 "pergunta" 10 = some (t, 1) ∧
      t.revision = 1 ∧ t.reflect = [] ∧ t.accepted = true :=
  C4_first_accept gwAccept agent0 "pergunta" 10 (by decide) (by decide)

/-- C5: evaluation of a rejected run whose two feedback calls return the
distinct texts R2 and R5: the terminal feedback history is the single entry
R5 — the second Feedback invocation replaced the first entry instead of
appending after it, so the history is not append-only. -/
theorem C5_feedback_history_overwritten :
    (runGraph gwNum agent0 "pergunta" 3).map (fun p => p.1.reflect) = some ["R5"] := by
  decide

/-- C6: the Acceptance Review stage sets accepted to true exactly when the
case-normalized gateway response contains the accept token ACEITO anywhere
as a contiguous substring, and to false otherwise. -/
theorem C6_verdict_substring (s : AgentState) (resp : String) :
    (senior_qa_engineer_node s resp).accepted = true ↔
      "ACEITO".data <:+: (pyUpper resp).data := by
  simp [senior_qa_engineer_node, pyIn]

/-- C7: the drafting stage stores the gateway response stripped of leading
and trailing whitespace as sql with no validation, increments revision, and
its instruction is the schema clause, then — only when the feedback history
is non-empty — the newline-joined feedback clause, then the question clause;
with an empty history the feedback clause is omitted entirely. -/
theorem C7_writer_instruction (s : AgentState) (resp : String) :
    (senior_sql_writer_node s resp).sql = pyStrip resp ∧
    (senior_sql_writer_node s resp).revision = s.revision + 1 ∧
    writerInstruction s =
      "Esquema do banco de dados:\n" ++ s.table_schemas ++ "\n" ++
      (if s.reflect = [] then "" else
        "Considere os seguintes feedbacks:\n" ++ String.intercalate "\n" s.reflect ++ "\n") ++
      ("Escreva a consulta SQL que responda à seguinte pergunta: " ++ s.question ++ "\n") := by
  refine ⟨rfl, rfl, ?_⟩
  by_cases hr : s.reflect = []
  · simp [writerInstruction, hr, String.append_empty]
  · have hlen : 0 < s.reflect.length := List.length_pos.mpr hr
    simp [writerInstruction, hr, hlen]

/-- C8 counterexample: at max_revision = -1 the always-reject run performs
one drafting invocation, which exceeds the claimed bound of
max_revision + 1 = 0 invocations. -/
theorem C8_counterexample_negative_cap :
    (runGraph gwReject agent0 "pergunta" (-1)).map (fun p => p.2) = some 1 ∧
      ¬((1 : Int) ≤ (-1) + 1) := by
  constructor
  · decide
  · decide

/-- C8 amended: every run terminates for every integer max_revision, and
for every max_revision ≥ 0 it performs at most max_revision + 1 drafting
invocations. -/
theorem C8_termination_and_bound (gw : Nat → String) (A : Agent) (q : String) (m : Int) :
    ∃ t d, runGraph gw A q m = some (t, d) ∧ (0 ≤ m → (d : Int) ≤ m + 1) := by
  have hfuel :
      (((search_engineer_node A (initial_state q m)).max_revision -
        (search_engineer_node A (initial_state q m)).revision).toNat) < m.toNat + 1 := by
    simp only [search_engineer_node, initial_state]
    omega
  obtain ⟨t, d, heq, hd1, hrevt, hmaxt, hbound⟩ :=
    loopFrom_total gw (m.toNat + 1) 0 (search_engineer_node A (initial_state q m)) hfuel
  refine ⟨t, d, heq, ?_⟩
  intro hm
  have hb : d ≤ max 1 (((search_engineer_node A (initial_state q m)).max_revision -
      (search_engineer_node A (initial_state q m)).revision).toNat) := hbound
  simp only [search_engineer_node, initial_state] at hb
  have hb2 : d ≤ max 1 (m - 0).toNat := hb
  have hb3 : d ≤ m.toNat + 1 := by
    have := Nat.max_le.mpr (And.intro (Nat.le_add_left 1 m.toNat) (by omega) :
      1 ≤ m.toNat + 1 ∧ (m - 0).toNat ≤ m.toNat + 1)
    omega
  omega

/-- C8 amended witness: the always-reject run at max_revision 2. -/
theorem C8_termination_and_bound_witness :
    ∃ t d, runGraph gwReject agent0 "pergunta" 2 = some (t, d) ∧
      (0 ≤ (2 : Int) → (d : Int) ≤ 2 + 1) :=
  C8_termination_and_bound gwReject agent0 "pergunta" 2

/-- C9: the run is a function of the canned gateway response sequence and
the inputs alone — two runs with identical question, max_revision and
pointwise-identical gateway responses produce identical terminal results. -/
theorem C9_deterministic (g1 g2 : Nat → String) (A : Agent) (q : String) (m : Int)
    (h : ∀ n, g1 n = g2 n) :
    runGraph g1 A q m = runGraph g2 A q m := by
  rw [funext h]

/-- C9 witness: re-running the always-reject scenario. -/
theorem C9_deterministic_witness :
    runGraph gwReject agent0 "pergunta" 1 = runGraph gwReject agent0 "pergunta" 1 :=
  C9_deterministic gwReject gwReject agent0 "pergunta" 1 (fun _ => rfl)

/-- C10: for every integer max_revision, zero and negative included, the
run drafts at least once before any termination check, so the terminal
revision equals the number of drafts and is at least 1. -/
theorem C10_at_least_one_draft (gw : Nat → String) (A : Agent) (q : String) (m : Int) :
    ∃ t d, runGraph gw A q m = some (t, d) ∧ 1 ≤ d ∧
      t.revision = (d : Int) ∧ 1 ≤ t.revision := by
  have hfuel :
      (((search_engineer_node A (initial_state q m)).max_revision -
        (search_engineer_node A (initial_state q m)).revision).toNat) < m.toNat + 1 := by
    simp only [search_engineer_node, initial_state]
    omega
  obtain ⟨t, d, heq, hd1, hrevt, hmaxt, hbound⟩ :=
    loopFrom_total gw (m.toNat + 1) 0 (search_engineer_node A (initial_state q m)) hfuel
  have hrev0 : (search_engineer_node A (initial_state q m)).revision = 0 := by
    simp [search_engineer_node, initial_state]
  rw [hrev0, zero_add] at hrevt
  exact ⟨t, d, heq, hd1, hrevt, by omega⟩
